import Mathlib

/-!
Verification of the announcements CRUD service
(`src/backend/routers/announcements.py`).

The four HTTP handlers are embedded as pure Lean functions.  The document
store (MongoDB collections) becomes explicit state: the announcements
collection is a `List Announcement`, the teachers collection a
`List String` of usernames (teacher documents are keyed by username and
used only for existence checks).  The Python `datetime` library is
abstracted: handlers take a parser `fromiso : String → Option D` into an
arbitrary linearly ordered type `D` of instants, together with the
current instant; MongoDB's comparison of ISO timestamp strings in
queries is byte/lexicographic comparison, embedded as `String` order.
`ObjectId` construction from a string succeeds exactly on 24-character
hexadecimal strings, normalising case.
-/

namespace Announcements

/-- Error taxonomy of the handlers: HTTP 401 / 400 / 404 / 500. -/
inductive ApiError where
  | unauthorized
  | badRequest
  | notFound
  | internalError
deriving DecidableEq, Repr

/-- A stored announcement document.  `oid` is the `_id` field (an
ObjectId, kept as its lowercase hex string); `start_date = none` models
a missing or null `start_date`. -/
structure Announcement where
  oid : String
  message : String
  start_date : Option String
  expiration_date : String
  created_by : String
  created_at : String
deriving DecidableEq, Repr

/-- An announcement as returned to the caller: the `_id` field renamed
to a public `id` string, all other fields passed through. -/
structure PublicAnnouncement where
  id : String
  message : String
  start_date : Option String
  expiration_date : String
  created_by : String
  created_at : String
deriving DecidableEq, Repr

/-- `serialize_announcement`: rename `_id` to `id` (already a string),
keep every other field. -/
def serialize_announcement (a : Announcement) : PublicAnnouncement :=
  { id := a.oid, message := a.message, start_date := a.start_date,
    expiration_date := a.expiration_date, created_by := a.created_by,
    created_at := a.created_at }

/-- Lexicographic comparison of character lists.  UTF-8 byte order
coincides with codepoint order, so this is exactly MongoDB's comparison
of two BSON strings. -/
def charListLe : List Char → List Char → Bool
  | [], _ => true
  | _ :: _, [] => false
  | a :: as, b :: bs =>
      if a < b then true else if b < a then false else charListLe as bs

/-- MongoDB's `$lte`/`$gte` order on BSON strings (byte order). -/
def strLe (a b : String) : Bool := charListLe a.data b.data

/-- Python truthiness of an `Optional[str]`: `None` and `""` are falsy. -/
def pyTruthy : Option String → Bool
  | none => false
  | some s => !(s == "")

/-- Hexadecimal digit, either case. -/
def isHexDigitChar (c : Char) : Bool :=
  c.isDigit || ('a' ≤ c && c ≤ 'f') || ('A' ≤ c && c ≤ 'F')

/-- `bson.ObjectId(s)` on a string argument: succeeds exactly when `s`
is 24 hex characters, and compares by the underlying 12 bytes, i.e. by
the case-normalised hex string. -/
def parseObjectId (s : String) : Option String :=
  if s.length == 24 && s.data.all isHexDigitChar then
    some (String.mk (s.data.map Char.toLower))
  else none

/-- Replace every occurrence of the character `pat` by the string `rep`
(Python `str.replace` with a one-character pattern). -/
def replaceChar (pat : Char) (rep : List Char) : List Char → List Char
  | [] => []
  | c :: cs =>
      if c == pat then rep ++ replaceChar pat rep cs
      else c :: replaceChar pat rep cs

/-- `s.replace("Z", "+00:00")`. -/
def pyReplaceZ (s : String) : String :=
  String.mk (replaceChar 'Z' "+00:00".data s.data)

/-- The MongoDB filter used by `get_announcements` when `active_only`
is true, evaluated at one document: `expiration_date ≥ current_time`
(string comparison) and (`start_date` missing, null, or
`≤ current_time`). -/
def matchesActiveQuery (current_time : String) (a : Announcement) : Bool :=
  strLe current_time a.expiration_date &&
    (match a.start_date with
     | none => true
     | some s => strLe s current_time)

/-- Descending order on `created_at` (the `.sort("created_at", -1)`). -/
def createdAtDesc (x y : Announcement) : Prop :=
  strLe y.created_at x.created_at = true

instance : DecidableRel createdAtDesc :=
  fun x y => inferInstanceAs (Decidable (strLe y.created_at x.created_at = true))

/-- `GET /announcements`: optionally filter to active documents, sort by
`created_at` descending, serialize.  `current_time` is the string
`datetime.utcnow().isoformat() + "Z"` computed at request time. -/
def get_announcements (current_time : String) (store : List Announcement)
    (active_only : Bool) : List PublicAnnouncement :=
  let matched :=
    if active_only then store.filter (matchesActiveQuery current_time) else store
  (matched.insertionSort createdAtDesc).map serialize_announcement

/-- `datetime.fromisoformat(s.replace("Z", "+00:00"))` for an abstract
datetime type `D`. -/
def parseIso {D : Type} (fromiso : String → Option D) (s : String) : Option D :=
  fromiso (pyReplaceZ s)

/-- The shared date-validation block of create/update on the optional
`start_date`: skipped when `start_date` is falsy; otherwise BadRequest
when `start_date` is unparseable or `st_date >= exp_date`. -/
def startDateCheck {D : Type} [LinearOrder D] (fromiso : String → Option D)
    (exp_date : D) (start_date : Option String) : Except ApiError Unit :=
  if pyTruthy start_date then
    match parseIso fromiso (start_date.getD "") with
    | none => Except.error ApiError.badRequest
    | some st_date =>
        if exp_date ≤ st_date then Except.error ApiError.badRequest
        else Except.ok ()
  else Except.ok ()

/-- The document built by `create_announcement`: the caller-supplied
strings stored verbatim, `created_by` set to the teacher username and
`created_at` to the current timestamp string. -/
def newAnnouncement (newId : String) (message : String)
    (expiration_date : String) (start_date : Option String)
    (teacher_username : String) (nowIso : String) : Announcement :=
  { oid := newId, message := message, start_date := start_date,
    expiration_date := expiration_date, created_by := teacher_username,
    created_at := nowIso }

/-- `POST /announcements`.  `nowCmp` is the instant `datetime.now(...)`
compared against the parsed expiration date; `nowIso` is the string
`datetime.utcnow().isoformat() + "Z"` stored as `created_at`; `newId`
is the ObjectId the store assigns to the inserted document.  Returns
the new store contents and the response record. -/
def create_announcement {D : Type} [LinearOrder D] (fromiso : String → Option D)
    (nowCmp : D) (nowIso : String) (teachers : List String)
    (store : List Announcement) (newId : String) (message : String)
    (expiration_date : String) (start_date : Option String)
    (teacher_username : String) :
    Except ApiError (List Announcement × PublicAnnouncement) :=
  if !(teachers.contains teacher_username) then
    Except.error ApiError.unauthorized
  else
    match parseIso fromiso expiration_date with
    | none => Except.error ApiError.badRequest
    | some exp_date =>
        if exp_date ≤ nowCmp then Except.error ApiError.badRequest
        else
          match startDateCheck fromiso exp_date start_date with
          | Except.error e => Except.error e
          | Except.ok _ =>
              let announcement : Announcement :=
                newAnnouncement newId message expiration_date start_date
                  teacher_username nowIso
              Except.ok (store ++ [announcement],
                serialize_announcement announcement)

/-- The `update_data` document of the `$set`: replaces `message`,
`start_date`, `expiration_date` of a document, leaving `_id`,
`created_by`, `created_at` intact. -/
def updateData (message : String) (start_date : Option String)
    (expiration_date : String) (a : Announcement) : Announcement :=
  { a with
    message := message
    start_date := start_date
    expiration_date := expiration_date }

/-- `update_one`'s write: replace `message`, `start_date`,
`expiration_date` of the first document matching the predicate, leaving
every other document and every other field intact. -/
def updateFirst (p : Announcement → Bool) (f : Announcement → Announcement) :
    List Announcement → List Announcement
  | [] => []
  | a :: as => if p a then f a :: as else a :: updateFirst p f as

/-- `PUT /announcements/{announcement_id}`.  Returns the new store
contents and the response record. -/
def update_announcement {D : Type} [LinearOrder D] (fromiso : String → Option D)
    (teachers : List String) (store : List Announcement)
    (announcement_id : String) (message : String) (expiration_date : String)
    (start_date : Option String) (teacher_username : String) :
    Except ApiError (List Announcement × PublicAnnouncement) :=
  if !(teachers.contains teacher_username) then
    Except.error ApiError.unauthorized
  else
    match parseObjectId announcement_id with
    | none => Except.error ApiError.badRequest
    | some obj_id =>
        match store.find? (fun a => a.oid == obj_id) with
        | none => Except.error ApiError.notFound
        | some _existing =>
            match parseIso fromiso expiration_date with
            | none => Except.error ApiError.badRequest
            | some exp_date =>
                match startDateCheck fromiso exp_date start_date with
                | Except.error e => Except.error e
                | Except.ok _ =>
                    let setFields : Announcement → Announcement :=
                      updateData message start_date expiration_date
                    let matched_count : Nat :=
                      if store.any (fun a => a.oid == obj_id) then 1 else 0
                    let modified_count : Nat :=
                      match store.find? (fun a => a.oid == obj_id) with
                      | none => 0
                      | some a => if setFields a = a then 0 else 1
                    let newStore :=
                      updateFirst (fun a => a.oid == obj_id) setFields store
                    if modified_count == 0 && matched_count == 0 then
                      Except.error ApiError.internalError
                    else
                      match newStore.find? (fun a => a.oid == obj_id) with
                      | some updated =>
                          Except.ok (newStore, serialize_announcement updated)
                      | none => Except.error ApiError.internalError

/-- `DELETE /announcements/{announcement_id}`.  `delete_one` removes the
first matching document; NotFound when `deleted_count == 0`.  Returns
the new store contents and the confirmation message. -/
def delete_announcement (teachers : List String) (store : List Announcement)
    (announcement_id : String) (teacher_username : String) :
    Except ApiError (List Announcement × String) :=
  if !(teachers.contains teacher_username) then
    Except.error ApiError.unauthorized
  else
    match parseObjectId announcement_id with
    | none => Except.error ApiError.badRequest
    | some obj_id =>
        let deleted_count : Nat :=
          if store.any (fun a => a.oid == obj_id) then 1 else 0
        let newStore := store.eraseP (fun a => a.oid == obj_id)
        if deleted_count = 0 then Except.error ApiError.notFound
        else Except.ok (newStore, "Announcement deleted successfully")

/-- The date-validation condition under which `create_announcement`
rejects with BadRequest, phrased on the parse results: expiration
unparseable, or not strictly after the current instant, or a truthy
`start_date` that is unparseable or not strictly before it. -/
def createDateRejected {D : Type} [LinearOrder D] (fromiso : String → Option D)
    (nowCmp : D) (expiration_date : String) (start_date : Option String) :
    Prop :=
  match parseIso fromiso expiration_date with
  | none => True
  | some exp_date =>
      exp_date ≤ nowCmp ∨
        (pyTruthy start_date = true ∧
          match parseIso fromiso (start_date.getD "") with
          | none => True
          | some st_date => exp_date ≤ st_date)

/-- Concrete instantiation of the abstract datetime library used to
evaluate the theorems on closed inputs: instants are naturals,
`fromisoformat` accepts nonempty decimal-digit strings. -/
def natParse (s : String) : Option Nat :=
  if s.data ≠ [] && s.data.all Char.isDigit then
    some (s.data.foldl (fun n c => n * 10 + (c.toNat - 48)) 0)
  else none

/-- Discriminator for the InternalError outcome of a handler call. -/
def isInternalError {A : Type} : Except ApiError A → Bool
  | Except.error ApiError.internalError => true
  | _ => false

/-- A stored announcement whose `expiration_date` equals the request
time used below. -/
def annC1 : Announcement :=
  { oid := "0123456789abcdef01234567", message := "m", start_date := none,
    expiration_date := "2024-06-01T00:00:00Z", created_by := "t1",
    created_at := "2024-05-01T00:00:00Z" }

/-- A generic stored announcement used to evaluate the theorems on
closed inputs; its dates are decimal instants for `natParse`. -/
def annW : Announcement :=
  { oid := "aaaaaaaaaaaaaaaa00000001", message := "old", start_date := none,
    expiration_date := "99", created_by := "t1", created_at := "7" }

end Announcements

namespace Announcements

theorem charListLe_total : ∀ as bs : List Char,
    charListLe as bs = true ∨ charListLe bs as = true := by
  intro as
  induction as with
  | nil => intro bs; left; rfl
  | cons a as ih =>
    intro bs
    cases bs with
    | nil => right; rfl
    | cons b bs =>
      rcases lt_trichotomy a b with hab | hab | hab
      · left; simp [charListLe, hab]
      · subst hab
        rcases ih bs with h | h
        · left; simp [charListLe, lt_irrefl, h]
        · right; simp [charListLe, lt_irrefl, h]
      · right; simp [charListLe, hab]

theorem charListLe_trans : ∀ as bs cs : List Char,
    charListLe as bs = true → charListLe bs cs = true →
    charListLe as cs = true := by
  intro as
  induction as with
  | nil => intro bs cs _ _; rfl
  | cons a as ih =>
    intro bs cs h1 h2
    cases bs with
    | nil => simp [charListLe] at h1
    | cons b bs =>
      cases cs with
      | nil => simp [charListLe] at h2
      | cons c cs =>
        simp only [charListLe] at h1 h2 ⊢
        rcases lt_trichotomy a b with hab | hab | hab
        · rcases lt_trichotomy b c with hbc | hbc | hbc
          · simp [lt_trans hab hbc]
          · subst hbc; simp [hab]
          · rw [if_neg (lt_asymm hbc), if_pos hbc] at h2
            exact absurd h2 (by simp)
        · subst hab
          rw [if_neg (lt_irrefl a), if_neg (lt_irrefl a)] at h1
          rcases lt_trichotomy a c with hac | hac | hac
          · simp [hac]
          · subst hac
            rw [if_neg (lt_irrefl a), if_neg (lt_irrefl a)] at h2 ⊢
            exact ih bs cs h1 h2
          · rw [if_neg (lt_asymm hac), if_pos hac] at h2
            exact absurd h2 (by simp)
        · rw [if_neg (lt_asymm hab), if_pos hab] at h1
          exact absurd h1 (by simp)

theorem strLe_total (a b : String) : strLe a b = true ∨ strLe b a = true :=
  charListLe_total a.data b.data

theorem strLe_trans {a b c : String} (h1 : strLe a b = true)
    (h2 : strLe b c = true) : strLe a c = true :=
  charListLe_trans a.data b.data c.data h1 h2

instance : IsTotal Announcement createdAtDesc :=
  ⟨fun a b => strLe_total b.created_at a.created_at⟩

instance : IsTrans Announcement createdAtDesc :=
  ⟨fun _ _ _ h1 h2 => strLe_trans h2 h1⟩

theorem serialize_announcement_inj {a b : Announcement}
    (h : serialize_announcement a = serialize_announcement b) : a = b := by
  cases a
  cases b
  simp only [serialize_announcement, PublicAnnouncement.mk.injEq] at h
  simp only [Announcement.mk.injEq]
  exact h

theorem matchesActiveQuery_iff (ct : String) (a : Announcement) :
    matchesActiveQuery ct a = true ↔
      strLe ct a.expiration_date = true ∧
        (a.start_date = none ∨
          ∃ s, a.start_date = some s ∧ strLe s ct = true) := by
  cases h : a.start_date <;> simp [matchesActiveQuery, h]

theorem mem_get_active {p : PublicAnnouncement} {ct : String}
    {store : List Announcement} :
    p ∈ get_announcements ct store true ↔
      ∃ a, a ∈ store ∧ matchesActiveQuery ct a = true ∧
        serialize_announcement a = p := by
  simp [get_announcements, List.mem_filter, and_assoc]

theorem mem_get_all {p : PublicAnnouncement} {ct : String}
    {store : List Announcement} :
    p ∈ get_announcements ct store false ↔
      ∃ a, a ∈ store ∧ serialize_announcement a = p := by
  simp [get_announcements]

/-- C1 (amended): with `active_only = true` a stored announcement is
returned exactly when `current_time ≤ expiration_date` (string order)
and the `start_date` is missing/null or `≤ current_time`, i.e. the
current time lies in the closed window `[start_date, expiration_date]`;
the boundary `expiration_date = current_time` is included, not
excluded. -/
theorem c1_active_window (ct : String) (store : List Announcement)
    (a : Announcement) (ha : a ∈ store) :
    serialize_announcement a ∈ get_announcements ct store true ↔
      (strLe ct a.expiration_date = true ∧
        (a.start_date = none ∨
          ∃ s, a.start_date = some s ∧ strLe s ct = true)) := by
  rw [mem_get_active]
  constructor
  · rintro ⟨b, _, hq, hs⟩
    obtain rfl := serialize_announcement_inj hs
    exact (matchesActiveQuery_iff ct _).mp hq
  · intro h
    exact ⟨a, ha, (matchesActiveQuery_iff ct a).mpr h, rfl⟩

/-- C1 witness: evaluating the amended characterisation on a concrete
store and request time. -/
theorem c1_witness :
    annC1 ∈ [annC1] ∧
    (serialize_announcement annC1 ∈
        get_announcements "2024-05-15T00:00:00Z" [annC1] true ↔
      (strLe "2024-05-15T00:00:00Z" annC1.expiration_date = true ∧
        (annC1.start_date = none ∨
          ∃ s, annC1.start_date = some s ∧
            strLe s "2024-05-15T00:00:00Z" = true))) :=
  ⟨by simp, c1_active_window "2024-05-15T00:00:00Z" [annC1] annC1 (by simp)⟩

/-- C1 counterexample: the claim excludes an announcement whose
`expiration_date` equals the current time, but the active-only list
returns it. -/
theorem c1_counterexample :
    annC1.expiration_date = "2024-06-01T00:00:00Z" ∧
    get_announcements "2024-06-01T00:00:00Z" [annC1] true
      = [serialize_announcement annC1] :=
  ⟨rfl, rfl⟩

theorem startDateCheck_cases {D : Type} [LinearOrder D]
    (fromiso : String → Option D) (e : D) (sd : Option String) :
    startDateCheck fromiso e sd = Except.ok () ∨
    startDateCheck fromiso e sd = Except.error ApiError.badRequest := by
  unfold startDateCheck
  split
  · split
    · right; rfl
    · split
      · right; rfl
      · left; rfl
  · left; rfl

theorem create_error_unauthorized_iff {D : Type} [LinearOrder D]
    (fromiso : String → Option D) (nowCmp : D) (nowIso : String)
    (teachers : List String) (store : List Announcement) (newId : String)
    (message : String) (expiration_date : String) (start_date : Option String)
    (teacher_username : String) :
    create_announcement fromiso nowCmp nowIso teachers store newId message
        expiration_date start_date teacher_username
      = Except.error ApiError.unauthorized ↔
    teachers.contains teacher_username = false := by
  cases hT : teachers.contains teacher_username
  all_goals first
    | (have hT2 : teacher_username ∉ teachers := by simpa using hT)
    | (have hT2 : teacher_username ∈ teachers := by simpa using hT)
  · simp [create_announcement, hT2]
  · cases hp : parseIso fromiso expiration_date with
    | none => simp [create_announcement, hT2, hp]
    | some e =>
      by_cases hle : e ≤ nowCmp
      · simp [create_announcement, hT2, hp, hle]
      · rcases startDateCheck_cases fromiso e start_date with h | h <;>
          simp [create_announcement, hT2, hp, hle, h]

theorem update_error_unauthorized_iff {D : Type} [LinearOrder D]
    (fromiso : String → Option D) (teachers : List String)
    (store : List Announcement) (announcement_id : String) (message : String)
    (expiration_date : String) (start_date : Option String)
    (teacher_username : String) :
    update_announcement fromiso teachers store announcement_id message
        expiration_date start_date teacher_username
      = Except.error ApiError.unauthorized ↔
    teachers.contains teacher_username = false := by
  cases hT : teachers.contains teacher_username
  all_goals first
    | (have hT2 : teacher_username ∉ teachers := by simpa using hT)
    | (have hT2 : teacher_username ∈ teachers := by simpa using hT)
  · simp [update_announcement, hT2]
  · cases hid : parseObjectId announcement_id with
    | none => simp [update_announcement, hT2, hid]
    | some obj_id =>
      cases hf : store.find? (fun a => a.oid == obj_id) with
      | none => simp [update_announcement, hT2, hid, hf]
      | some ex =>
        cases hp : parseIso fromiso expiration_date with
        | none => simp [update_announcement, hT2, hid, hf, hp]
        | some e =>
          rcases startDateCheck_cases fromiso e start_date with h | h
          · simp only [update_announcement, hT, Bool.not_true,
              Bool.false_eq_true, if_false, hid, hf, hp, h]
            simp only [Bool.true_eq_false, iff_false]
            (repeat' split) <;> simp
          · simp [update_announcement, hT2, hid, hf, hp, h]

theorem delete_error_unauthorized_iff (teachers : List String)
    (store : List Announcement) (announcement_id : String)
    (teacher_username : String) :
    delete_announcement teachers store announcement_id teacher_username
      = Except.error ApiError.unauthorized ↔
    teachers.contains teacher_username = false := by
  cases hT : teachers.contains teacher_username
  all_goals first
    | (have hT2 : teacher_username ∉ teachers := by simpa using hT)
    | (have hT2 : teacher_username ∈ teachers := by simpa using hT)
  · simp [delete_announcement, hT2]
  · cases hid : parseObjectId announcement_id with
    | none => simp [delete_announcement, hT2, hid]
    | some obj_id =>
      simp only [delete_announcement, hT, Bool.not_true, Bool.false_eq_true,
        if_false, hid]
      split <;> simp

/-- C3: each of create, update and delete fails with Unauthorized
exactly when no teacher record exists for `teacher_username`, no matter
what the other inputs are (the teacher check precedes identifier and
date validation). -/
theorem c3_unauthorized_iff_no_teacher {D : Type} [LinearOrder D]
    (fromiso : String → Option D) (nowCmp : D) (nowIso : String)
    (teachers : List String) (store : List Announcement) (newId : String)
    (announcement_id : String) (message : String) (expiration_date : String)
    (start_date : Option String) (teacher_username : String) :
    (create_announcement fromiso nowCmp nowIso teachers store newId message
        expiration_date start_date teacher_username
      = Except.error ApiError.unauthorized ↔
        teachers.contains teacher_username = false) ∧
    (update_announcement fromiso teachers store announcement_id message
        expiration_date start_date teacher_username
      = Except.error ApiError.unauthorized ↔
        teachers.contains teacher_username = false) ∧
    (delete_announcement teachers store announcement_id teacher_username
      = Except.error ApiError.unauthorized ↔
        teachers.contains teacher_username = false) :=
  ⟨create_error_unauthorized_iff fromiso nowCmp nowIso teachers store newId
      message expiration_date start_date teacher_username,
    update_error_unauthorized_iff fromiso teachers store announcement_id
      message expiration_date start_date teacher_username,
    delete_error_unauthorized_iff teachers store announcement_id
      teacher_username⟩

/-- C2: given the teacher exists, create fails with BadRequest exactly
when the expiration date fails to parse, is not strictly after the
current instant, or a provided (truthy) start date fails to parse or is
not strictly before it; otherwise it inserts the document and returns
the created record with its assigned identifier. -/
theorem c2_create_validation {D : Type} [LinearOrder D]
    (fromiso : String → Option D) (nowCmp : D) (nowIso : String)
    (teachers : List String) (store : List Announcement) (newId : String)
    (message : String) (expiration_date : String) (start_date : Option String)
    (teacher_username : String)
    (hT : teachers.contains teacher_username = true) :
    (create_announcement fromiso nowCmp nowIso teachers store newId message
        expiration_date start_date teacher_username
      = Except.error ApiError.badRequest ↔
      createDateRejected fromiso nowCmp expiration_date start_date) ∧
    (¬ createDateRejected fromiso nowCmp expiration_date start_date →
      create_announcement fromiso nowCmp nowIso teachers store newId message
          expiration_date start_date teacher_username
        = Except.ok (store ++ [newAnnouncement newId message expiration_date
            start_date teacher_username nowIso],
          serialize_announcement (newAnnouncement newId message
            expiration_date start_date teacher_username nowIso))) := by
  have hT2 : teacher_username ∈ teachers := by simpa using hT
  cases hp : parseIso fromiso expiration_date with
  | none =>
    constructor
    · simp [create_announcement, hT2, hp, createDateRejected]
    · intro hnb
      refine absurd ?_ hnb
      simp [createDateRejected, hp]
  | some e =>
    by_cases hle : e ≤ nowCmp
    · constructor
      · simp [create_announcement, hT2, hp, hle, createDateRejected]
      · intro hnb
        refine absurd ?_ hnb
        simp [createDateRejected, hp, hle]
    · cases hsd : pyTruthy start_date with
      | false =>
        have hok : startDateCheck fromiso e start_date = Except.ok () := by
          simp [startDateCheck, hsd]
        constructor
        · simp [create_announcement, hT2, hp, hle, hok, createDateRejected,
            hsd]
        · intro _
          simp [create_announcement, hT2, hp, hle, hok]
      | true =>
        cases hsp : parseIso fromiso (start_date.getD "") with
        | none =>
          have hbad : startDateCheck fromiso e start_date
              = Except.error ApiError.badRequest := by
            simp [startDateCheck, hsd, hsp]
          constructor
          · simp [create_announcement, hT2, hp, hle, hbad, createDateRejected,
              hsd, hsp]
          · intro hnb
            refine absurd ?_ hnb
            simp [createDateRejected, hp, hle, hsd, hsp]
        | some st =>
          by_cases hse : e ≤ st
          · have hbad : startDateCheck fromiso e start_date
                = Except.error ApiError.badRequest := by
              simp [startDateCheck, hsd, hsp, hse]
            constructor
            · simp [create_announcement, hT2, hp, hle, hbad,
                createDateRejected, hsd, hsp, hse]
            · intro hnb
              refine absurd ?_ hnb
              simp [createDateRejected, hp, hle, hsd, hsp, hse]
          · have hok : startDateCheck fromiso e start_date
                = Except.ok () := by
              simp [startDateCheck, hsd, hsp, hse]
            constructor
            · simp [create_announcement, hT2, hp, hle, hok,
                createDateRejected, hsd, hsp, hse]
            · intro _
              simp [create_announcement, hT2, hp, hle, hok]

/-- C2 witness: the validation characterisation evaluated on a concrete
valid request (teacher exists, expiration 10 after current instant 5,
no start date, empty store). -/
theorem c2_witness :
    (create_announcement (D := Nat) natParse 5 "NOW" ["t1"] []
        "aaaaaaaaaaaaaaaa00000002" "hello" "10" none "t1"
      = Except.error ApiError.badRequest ↔
      createDateRejected (D := Nat) natParse 5 "10" none) ∧
    (¬ createDateRejected (D := Nat) natParse 5 "10" none →
      create_announcement (D := Nat) natParse 5 "NOW" ["t1"] []
          "aaaaaaaaaaaaaaaa00000002" "hello" "10" none "t1"
        = Except.ok ([] ++ [newAnnouncement "aaaaaaaaaaaaaaaa00000002"
            "hello" "10" none "t1" "NOW"],
          serialize_announcement (newAnnouncement "aaaaaaaaaaaaaaaa00000002"
            "hello" "10" none "t1" "NOW"))) :=
  c2_create_validation natParse 5 "NOW" ["t1"] [] "aaaaaaaaaaaaaaaa00000002"
    "hello" "10" none "t1" rfl

theorem create_ok_inv {D : Type} [LinearOrder D] {fromiso : String → Option D}
    {nowCmp : D} {nowIso : String} {teachers : List String}
    {store : List Announcement} {newId message expiration_date : String}
    {start_date : Option String} {teacher_username : String}
    {ns : List Announcement} {pub : PublicAnnouncement}
    (h : create_announcement fromiso nowCmp nowIso teachers store newId
        message expiration_date start_date teacher_username
      = Except.ok (ns, pub)) :
    ns = store ++ [newAnnouncement newId message expiration_date start_date
      teacher_username nowIso] ∧
    pub = serialize_announcement (newAnnouncement newId message
      expiration_date start_date teacher_username nowIso) := by
  revert h
  unfold create_announcement
  (repeat' split) <;> intro h <;> (try cases h) <;> simp_all

/-- C6: a record accepted by create, when subsequently fetched via the
list operation, carries exactly the caller-supplied `message`,
`start_date` and `expiration_date` strings (stored verbatim, not
normalised). -/
theorem c6_roundtrip {D : Type} [LinearOrder D] (fromiso : String → Option D)
    (nowCmp : D) (nowIso : String) (teachers : List String)
    (store : List Announcement) (newId message expiration_date : String)
    (start_date : Option String) (teacher_username : String)
    (ns : List Announcement) (pub : PublicAnnouncement) (ct : String)
    (h : create_announcement fromiso nowCmp nowIso teachers store newId
        message expiration_date start_date teacher_username
      = Except.ok (ns, pub)) :
    pub.message = message ∧ pub.start_date = start_date ∧
    pub.expiration_date = expiration_date ∧
    ∃ q ∈ get_announcements ct ns false, q.id = newId ∧
      q.message = message ∧ q.start_date = start_date ∧
      q.expiration_date = expiration_date := by
  obtain ⟨hns, hpub⟩ := create_ok_inv h
  subst hns
  subst hpub
  refine ⟨rfl, rfl, rfl, serialize_announcement (newAnnouncement newId
    message expiration_date start_date teacher_username nowIso), ?_, rfl,
    rfl, rfl, rfl⟩
  rw [mem_get_all]
  exact ⟨newAnnouncement newId message expiration_date start_date
    teacher_username nowIso, by simp, rfl⟩

/-- C6 witness: a concrete successful create, then the round-trip facts
read back through the list operation. -/
theorem c6_witness :
    (serialize_announcement (newAnnouncement "aaaaaaaaaaaaaaaa00000003"
        "hello" "10" none "t1" "NOW")).message = "hello" ∧
    (serialize_announcement (newAnnouncement "aaaaaaaaaaaaaaaa00000003"
        "hello" "10" none "t1" "NOW")).start_date = none ∧
    (serialize_announcement (newAnnouncement "aaaaaaaaaaaaaaaa00000003"
        "hello" "10" none "t1" "NOW")).expiration_date = "10" ∧
    ∃ q ∈ get_announcements "0" ([] ++ [newAnnouncement
        "aaaaaaaaaaaaaaaa00000003" "hello" "10" none "t1" "NOW"]) false,
      q.id = "aaaaaaaaaaaaaaaa00000003" ∧ q.message = "hello" ∧
      q.start_date = none ∧ q.expiration_date = "10" :=
  c6_roundtrip natParse 5 "NOW" ["t1"] [] "aaaaaaaaaaaaaaaa00000003"
    "hello" "10" none "t1" _ _ "0" rfl

theorem find?_updateFirst (p : Announcement → Bool)
    (f : Announcement → Announcement)
    (hpf : ∀ a, p a = true → p (f a) = true) :
    ∀ (l : List Announcement) (a : Announcement), l.find? p = some a →
      (updateFirst p f l).find? p = some (f a) := by
  intro l
  induction l with
  | nil => intro a h; simp at h
  | cons b bs ih =>
    intro a h
    by_cases hb : p b
    · rw [List.find?_cons_of_pos _ hb] at h
      cases h
      simp only [updateFirst, if_pos hb]
      rw [List.find?_cons_of_pos _ (hpf b hb)]
    · rw [List.find?_cons_of_neg _ hb] at h
      simp only [updateFirst, if_neg hb]
      rw [List.find?_cons_of_neg _ hb]
      exact ih a h

/-- C9: the defensive InternalError branch of the update operation is
unreachable: in the sequential model, once the existence check has
found the document, the write reports a match, so the update never
returns InternalError for any input. -/
theorem c9_internal_error_unreachable {D : Type} [LinearOrder D]
    (fromiso : String → Option D) (teachers : List String)
    (store : List Announcement) (announcement_id : String) (message : String)
    (expiration_date : String) (start_date : Option String)
    (teacher_username : String) :
    isInternalError (update_announcement fromiso teachers store
      announcement_id message expiration_date start_date teacher_username)
      = false := by
  cases hT : teachers.contains teacher_username
  all_goals first
    | (have hT2 : teacher_username ∉ teachers := by simpa using hT)
    | (have hT2 : teacher_username ∈ teachers := by simpa using hT)
  · simp [isInternalError, update_announcement, hT2]
  · cases hid : parseObjectId announcement_id with
    | none => simp [isInternalError, update_announcement, hT2, hid]
    | some obj_id =>
      cases hf : store.find? (fun a => a.oid == obj_id) with
      | none => simp [isInternalError, update_announcement, hT2, hid, hf]
      | some ex =>
        cases hp : parseIso fromiso expiration_date with
        | none => simp [isInternalError, update_announcement, hT2, hid, hf, hp]
        | some e =>
          rcases startDateCheck_cases fromiso e start_date with h | h
          · have hmem := List.mem_of_find?_eq_some hf
            have hpx := List.find?_some hf
            have hany : store.any (fun a => a.oid == obj_id) = true :=
              List.any_eq_true.mpr ⟨ex, hmem, hpx⟩
            have hfind := find?_updateFirst (fun a => a.oid == obj_id)
              (updateData message start_date expiration_date)
              (fun a ha => ha) store ex hf
            simp only [update_announcement, hT, Bool.not_true,
              Bool.false_eq_true, if_false, hid, hf, hp, h]
            simp [isInternalError, hany, hfind]
          · simp only [update_announcement, hT, Bool.not_true,
              Bool.false_eq_true, if_false, hid, hf, hp, h]
            simp [isInternalError]

theorem any_eraseP_oid (obj_id : String) :
    ∀ l : List Announcement, l.Pairwise (fun a b => a.oid ≠ b.oid) →
      (l.eraseP (fun a => a.oid == obj_id)).any (fun a => a.oid == obj_id)
        = false := by
  intro l
  induction l with
  | nil => intro _; rfl
  | cons a as ih =>
    intro hpw
    rw [List.pairwise_cons] at hpw
    by_cases ha : (a.oid == obj_id) = true
    · rw [@List.eraseP_cons_of_pos _ a as (fun x => x.oid == obj_id) ha]
      rw [List.any_eq_false]
      intro x hx
      have hne := hpw.1 x hx
      have haeq : a.oid = obj_id := by simpa using ha
      simp only [beq_iff_eq]
      exact fun hc => hne (by rw [haeq, hc])
    · rw [@List.eraseP_cons_of_neg _ a as (fun x => x.oid == obj_id) ha]
      simp only [List.any_cons, ih hpw.2, Bool.or_false]
      simpa using ha

theorem delete_announcement_shape (teachers : List String)
    (announcement_id : String) (teacher_username : String) (obj_id : String)
    (hT2 : teacher_username ∈ teachers)
    (hId : parseObjectId announcement_id = some obj_id)
    (st : List Announcement) :
    delete_announcement teachers st announcement_id teacher_username
      = if st.any (fun a => a.oid == obj_id)
        then Except.ok (st.eraseP (fun a => a.oid == obj_id),
          "Announcement deleted successfully")
        else Except.error ApiError.notFound := by
  cases hany : st.any (fun a => a.oid == obj_id) <;>
    simp [delete_announcement, hT2, hId, hany]

/-- C7: for a well-formed identifier and existing teacher, delete fails
with NotFound exactly when no stored document matches the identifier;
and (with unique identifiers) after a successful delete, an immediate
second delete of the same identifier fails with NotFound. -/
theorem c7_delete_notfound (teachers : List String)
    (store : List Announcement) (announcement_id : String)
    (teacher_username : String) (obj_id : String)
    (hT : teachers.contains teacher_username = true)
    (hId : parseObjectId announcement_id = some obj_id) :
    (delete_announcement teachers store announcement_id teacher_username
        = Except.error ApiError.notFound ↔
      ∀ a ∈ store, (a.oid == obj_id) = false) ∧
    (∀ ns msg, store.Pairwise (fun a b => a.oid ≠ b.oid) →
      delete_announcement teachers store announcement_id teacher_username
        = Except.ok (ns, msg) →
      delete_announcement teachers ns announcement_id teacher_username
        = Except.error ApiError.notFound) := by
  have hT2 : teacher_username ∈ teachers := by simpa using hT
  have hshape := delete_announcement_shape teachers announcement_id
    teacher_username obj_id hT2 hId
  constructor
  · rw [hshape store]
    cases hany : store.any (fun a => a.oid == obj_id)
    · simp only [hany, Bool.false_eq_true, if_false]
      have hall := List.any_eq_false.mp hany
      constructor
      · intro _ a ha
        simpa using hall a ha
      · intro _; trivial
    · simp only [hany, if_true]
      constructor
      · intro hcontra; cases hcontra
      · intro hall
        rcases List.any_eq_true.mp hany with ⟨a, ha, hpa⟩
        rw [hall a ha] at hpa
        cases hpa
  · intro ns msg hpw hok
    rw [hshape store] at hok
    cases hany : store.any (fun a => a.oid == obj_id)
    · rw [hany] at hok
      simp at hok
    · rw [hany] at hok
      simp only [if_true] at hok
      have hns : ns = store.eraseP (fun a => a.oid == obj_id) := by
        cases hok; rfl
      subst hns
      rw [hshape _]
      simp [any_eraseP_oid obj_id store hpw]

/-- C7 witness: a concrete store with one document; the
characterisation and the delete-twice property evaluated there. -/
theorem c7_witness :
    ((delete_announcement ["t1"] [annW] "aaaaaaaaaaaaaaaa00000001" "t1"
        = Except.error ApiError.notFound ↔
      ∀ a ∈ [annW], (a.oid == "aaaaaaaaaaaaaaaa00000001") = false) ∧
    (∀ ns msg, List.Pairwise (fun a b => a.oid ≠ b.oid) [annW] →
      delete_announcement ["t1"] [annW] "aaaaaaaaaaaaaaaa00000001" "t1"
        = Except.ok (ns, msg) →
      delete_announcement ["t1"] ns "aaaaaaaaaaaaaaaa00000001" "t1"
        = Except.error ApiError.notFound)) :=
  c7_delete_notfound ["t1"] [annW] "aaaaaaaaaaaaaaaa00000001" "t1"
    "aaaaaaaaaaaaaaaa00000001" rfl rfl

theorem update_ok_of_valid {D : Type} [LinearOrder D]
    (fromiso : String → Option D) (teachers : List String)
    (store : List Announcement)
    (announcement_id message expiration_date : String)
    (start_date : Option String) (teacher_username : String)
    (obj_id : String) (ex : Announcement) (e : D)
    (hT : teachers.contains teacher_username = true)
    (hId : parseObjectId announcement_id = some obj_id)
    (hf : store.find? (fun a => a.oid == obj_id) = some ex)
    (hp : parseIso fromiso expiration_date = some e)
    (hs : startDateCheck fromiso e start_date = Except.ok ()) :
    update_announcement fromiso teachers store announcement_id message
        expiration_date start_date teacher_username
      = Except.ok (updateFirst (fun a => a.oid == obj_id)
          (updateData message start_date expiration_date) store,
        serialize_announcement
          (updateData message start_date expiration_date ex)) := by
  have hmem := List.mem_of_find?_eq_some hf
  have hpx := List.find?_some hf
  have hany : store.any (fun a => a.oid == obj_id) = true :=
    List.any_eq_true.mpr ⟨ex, hmem, hpx⟩
  have hfind := find?_updateFirst (fun a => a.oid == obj_id)
    (updateData message start_date expiration_date)
    (fun a ha => ha) store ex hf
  simp only [update_announcement, hT, Bool.not_true, Bool.false_eq_true,
    if_false, hId, hf, hp, hs]
  simp [isInternalError, hany, hfind]

/-- C4: unlike create, update does not validate that the expiration
date is in the future: for any current instant `nowCmp` strictly after
the parsed expiration date, an update with parseable dates (start, if
truthy, strictly before expiration) succeeds and stores the past
expiration date. -/
theorem c4_update_past_expiration {D : Type} [LinearOrder D]
    (fromiso : String → Option D) (nowCmp : D) (teachers : List String)
    (store : List Announcement)
    (announcement_id message expiration_date : String)
    (start_date : Option String) (teacher_username : String)
    (obj_id : String) (ex : Announcement) (e : D)
    (hT : teachers.contains teacher_username = true)
    (hId : parseObjectId announcement_id = some obj_id)
    (hf : store.find? (fun a => a.oid == obj_id) = some ex)
    (hp : parseIso fromiso expiration_date = some e)
    (hpast : e < nowCmp)
    (hsd : pyTruthy start_date = true →
      ∃ s, parseIso fromiso (start_date.getD "") = some s ∧ s < e) :
    ∃ ns pub, update_announcement fromiso teachers store announcement_id
        message expiration_date start_date teacher_username
      = Except.ok (ns, pub) ∧
      pub.expiration_date = expiration_date ∧
      ∃ b ∈ ns, b.oid = ex.oid ∧ b.expiration_date = expiration_date := by
  have hs : startDateCheck fromiso e start_date = Except.ok () := by
    cases htr : pyTruthy start_date
    · simp [startDateCheck, htr]
    · obtain ⟨s, hps, hlt⟩ := hsd htr
      simp [startDateCheck, htr, hps, not_le.mpr hlt]
  have hmain := update_ok_of_valid fromiso teachers store announcement_id
    message expiration_date start_date teacher_username obj_id ex e hT hId
    hf hp hs
  refine ⟨_, _, hmain, rfl,
    updateData message start_date expiration_date ex, ?_, rfl, rfl⟩
  exact List.mem_of_find?_eq_some (find?_updateFirst
    (fun a => a.oid == obj_id)
    (updateData message start_date expiration_date)
    (fun a ha => ha) store ex hf)

/-- C4 witness: a concrete update whose expiration date 5 lies before
the current instant 10 succeeds and stores it. -/
theorem c4_witness :
    ∃ ns pub, update_announcement (D := Nat) natParse ["t1"] [annW]
        "aaaaaaaaaaaaaaaa00000001" "new" "5" none "t1"
      = Except.ok (ns, pub) ∧
      pub.expiration_date = "5" ∧
      ∃ b ∈ ns, b.oid = annW.oid ∧ b.expiration_date = "5" :=
  c4_update_past_expiration natParse 10 ["t1"] [annW]
    "aaaaaaaaaaaaaaaa00000001" "new" "5" none "t1"
    "aaaaaaaaaaaaaaaa00000001" annW 5 rfl rfl rfl rfl (by decide)
    (fun hcon => absurd hcon (by decide))

/-- C10: an empty-string `start_date` is falsy in Python, so neither
create nor update parses or order-checks it, both succeed when the
remaining checks pass, and the empty string is stored verbatim. -/
theorem c10_empty_start {D : Type} [LinearOrder D]
    (fromiso : String → Option D) (nowCmp : D) (nowIso : String)
    (teachers : List String) (store : List Announcement)
    (newId announcement_id message expiration_date : String)
    (teacher_username obj_id : String) (ex : Announcement) (e : D)
    (hT : teachers.contains teacher_username = true)
    (hp : parseIso fromiso expiration_date = some e)
    (hfut : nowCmp < e)
    (hId : parseObjectId announcement_id = some obj_id)
    (hf : store.find? (fun a => a.oid == obj_id) = some ex) :
    (create_announcement fromiso nowCmp nowIso teachers store newId message
        expiration_date (some "") teacher_username
      = Except.ok (store ++ [newAnnouncement newId message expiration_date
          (some "") teacher_username nowIso],
        serialize_announcement (newAnnouncement newId message
          expiration_date (some "") teacher_username nowIso))) ∧
    (∃ ns pub, update_announcement fromiso teachers store announcement_id
        message expiration_date (some "") teacher_username
      = Except.ok (ns, pub) ∧ pub.start_date = some "" ∧
      ∃ b ∈ ns, b.oid = ex.oid ∧ b.start_date = some "") := by
  have hT2 : teacher_username ∈ teachers := by simpa using hT
  have hs : startDateCheck fromiso e (some "") = Except.ok () := by
    simp [startDateCheck, pyTruthy]
  constructor
  · simp [create_announcement, hT2, hp, not_le.mpr hfut, hs]
  · have hmain := update_ok_of_valid fromiso teachers store announcement_id
      message expiration_date (some "") teacher_username obj_id ex e hT hId
      hf hp hs
    refine ⟨_, _, hmain, rfl,
      updateData message (some "") expiration_date ex, ?_, rfl, rfl⟩
    exact List.mem_of_find?_eq_some (find?_updateFirst
      (fun a => a.oid == obj_id)
      (updateData message (some "") expiration_date)
      (fun a ha => ha) store ex hf)

/-- C10 witness: create and update evaluated with `start_date` equal to
the empty string (which `natParse` cannot parse) both succeed and store
it verbatim. -/
theorem c10_witness :
    (create_announcement (D := Nat) natParse 5 "NOW" ["t1"] [annW]
        "aaaaaaaaaaaaaaaa00000004" "hello" "10" (some "") "t1"
      = Except.ok ([annW] ++ [newAnnouncement "aaaaaaaaaaaaaaaa00000004"
          "hello" "10" (some "") "t1" "NOW"],
        serialize_announcement (newAnnouncement "aaaaaaaaaaaaaaaa00000004"
          "hello" "10" (some "") "t1" "NOW"))) ∧
    (∃ ns pub, update_announcement (D := Nat) natParse ["t1"] [annW]
        "aaaaaaaaaaaaaaaa00000001" "hello" "10" (some "") "t1"
      = Except.ok (ns, pub) ∧ pub.start_date = some "" ∧
      ∃ b ∈ ns, b.oid = annW.oid ∧ b.start_date = some "") :=
  c10_empty_start natParse 5 "NOW" ["t1"] [annW]
    "aaaaaaaaaaaaaaaa00000004" "aaaaaaaaaaaaaaaa00000001" "hello" "10"
    "t1" "aaaaaaaaaaaaaaaa00000001" annW 10 rfl rfl (by decide) rfl rfl

theorem length_updateFirst (p : Announcement → Bool)
    (f : Announcement → Announcement) :
    ∀ l : List Announcement, (updateFirst p f l).length = l.length := by
  intro l
  induction l with
  | nil => rfl
  | cons a as ih => by_cases hp : p a <;> simp [updateFirst, hp, ih]

theorem get_updateFirst_oid (obj_id : String)
    (f : Announcement → Announcement) :
    ∀ (l : List Announcement), l.Pairwise (fun a b => a.oid ≠ b.oid) →
      ∀ (i : Nat) (hi : i < l.length)
        (hi2 : i < (updateFirst (fun a => a.oid == obj_id) f l).length),
        (updateFirst (fun a => a.oid == obj_id) f l).get ⟨i, hi2⟩
          = if (l.get ⟨i, hi⟩).oid = obj_id then f (l.get ⟨i, hi⟩)
            else l.get ⟨i, hi⟩ := by
  intro l
  induction l with
  | nil => intro _ i hi _; exact absurd hi (Nat.not_lt_zero i)
  | cons a as ih =>
    intro hpw i hi hi2
    rw [List.pairwise_cons] at hpw
    by_cases hpa : (a.oid == obj_id) = true
    · have ha : a.oid = obj_id := by simpa using hpa
      cases i with
      | zero => simp [updateFirst, hpa, ha]
      | succ j =>
        have hj : j < as.length := by simpa using hi
        have hcond : ¬ (as.get ⟨j, hj⟩).oid = obj_id := by
          intro hc
          exact hpw.1 (as.get ⟨j, hj⟩) (List.get_mem as j hj)
            (by rw [ha, hc])
        simp only [List.get_eq_getElem] at hcond
        simp [updateFirst, hpa, hcond]
    · cases i with
      | zero =>
        have ha : ¬ a.oid = obj_id := by simpa using hpa
        simp [updateFirst, hpa, ha]
      | succ j =>
        have hj : j < as.length := by simpa using hi
        have hj2 : j < (updateFirst (fun a => a.oid == obj_id) f as).length := by
          rw [length_updateFirst]
          exact hj
        have hih := ih hpw.2 j hj hj2
        simpa [updateFirst, hpa] using hih

theorem update_ok_inv {D : Type} [LinearOrder D] {fromiso : String → Option D}
    {teachers : List String} {store : List Announcement}
    {announcement_id message expiration_date : String}
    {start_date : Option String} {teacher_username : String}
    {obj_id : String} {ns : List Announcement} {pub : PublicAnnouncement}
    (hId : parseObjectId announcement_id = some obj_id)
    (h : update_announcement fromiso teachers store announcement_id message
        expiration_date start_date teacher_username = Except.ok (ns, pub)) :
    ns = updateFirst (fun a => a.oid == obj_id)
        (updateData message start_date expiration_date) store ∧
    ∃ d, ns.find? (fun a => a.oid == obj_id) = some d ∧
      pub = serialize_announcement d := by
  revert h
  simp only [update_announcement, hId]
  (repeat' split) <;> intro h <;> (try cases h) <;> simp_all

/-- C5: a successful update replaces only `message`, `start_date`,
`expiration_date` of the targeted document — its identifier,
`created_by` and `created_at` are untouched (`updateData` keeps them) —
every other stored announcement is unchanged, and the returned record
is the updated document. -/
theorem c5_update_frame {D : Type} [LinearOrder D]
    (fromiso : String → Option D) (teachers : List String)
    (store : List Announcement)
    (announcement_id message expiration_date : String)
    (start_date : Option String) (teacher_username : String)
    (obj_id : String) (ns : List Announcement) (pub : PublicAnnouncement)
    (hId : parseObjectId announcement_id = some obj_id)
    (hNd : store.Pairwise (fun a b => a.oid ≠ b.oid))
    (h : update_announcement fromiso teachers store announcement_id message
        expiration_date start_date teacher_username = Except.ok (ns, pub)) :
    ns.length = store.length ∧
    (∀ (i : Nat) (hi : i < store.length) (hi2 : i < ns.length),
      ns.get ⟨i, hi2⟩ = if (store.get ⟨i, hi⟩).oid = obj_id
        then updateData message start_date expiration_date
          (store.get ⟨i, hi⟩)
        else store.get ⟨i, hi⟩) ∧
    ∃ d, ns.find? (fun a => a.oid == obj_id) = some d ∧
      pub = serialize_announcement d := by
  obtain ⟨hns, hd⟩ := update_ok_inv hId h
  subst hns
  refine ⟨length_updateFirst _ _ store, ?_, hd⟩
  intro i hi hi2
  exact get_updateFirst_oid obj_id
    (updateData message start_date expiration_date) store hNd i hi hi2

/-- C5 witness: the frame facts evaluated on a concrete successful
update of a one-document store. -/
theorem c5_witness :
    ([updateData "new2" none "10" annW].length = [annW].length) ∧
    (∀ (i : Nat) (hi : i < [annW].length)
      (hi2 : i < [updateData "new2" none "10" annW].length),
      [updateData "new2" none "10" annW].get ⟨i, hi2⟩
        = if ([annW].get ⟨i, hi⟩).oid = "aaaaaaaaaaaaaaaa00000001"
          then updateData "new2" none "10" ([annW].get ⟨i, hi⟩)
          else [annW].get ⟨i, hi⟩) ∧
    ∃ d, [updateData "new2" none "10" annW].find?
        (fun a => a.oid == "aaaaaaaaaaaaaaaa00000001") = some d ∧
      serialize_announcement (updateData "new2" none "10" annW)
        = serialize_announcement d :=
  c5_update_frame (D := Nat) natParse ["t1"] [annW]
    "aaaaaaaaaaaaaaaa00000001" "new2" "10" none "t1"
    "aaaaaaaaaaaaaaaa00000001" [updateData "new2" none "10" annW]
    (serialize_announcement (updateData "new2" none "10" annW))
    rfl (by simp) rfl

/-- C8: with `active_only = false` the list operation returns every
stored announcement (a permutation of the serialized store), and in
both modes the result is ordered by `created_at` descending. -/
theorem c8_list_all_sorted (ct : String) (store : List Announcement) :
    (get_announcements ct store false).Perm
        (store.map serialize_announcement) ∧
    ∀ active : Bool, (get_announcements ct store active).Pairwise
      (fun x y => strLe y.created_at x.created_at = true) := by
  constructor
  · simpa [get_announcements] using
      (List.perm_insertionSort createdAtDesc store).map serialize_announcement
  · intro active
    have hs := List.sorted_insertionSort createdAtDesc
      (if active = true then store.filter (matchesActiveQuery ct) else store)
    simp only [get_announcements]
    cases active
    · simpa using List.Pairwise.map serialize_announcement
        (fun a b h => h) (by simpa using hs)
    · simpa using List.Pairwise.map serialize_announcement
        (fun a b h => h) (by simpa using hs)

end Announcements
